import Mathlib

/-!
Verification of the FunctionalCoverageParsers core: a shallow embedding of the
parsing and data-aggregation engine (parser_utils.cpp, coverage_database.cpp,
high_performance_parser.cpp) with strings modelled as `List Char`, C++
`double` modelled as exact rationals `ℚ`, and the `uint32` accumulators
modelled as `Nat` with explicit reduction modulo 2^32 where the source
wraps.  Fallible operations return `Option` or a `ParserResult` code; C++
undefined behaviour (such as `std::string::back()` on an empty string) is
modelled as `Option.none`.
-/

namespace CovParse

/-- Error codes of the library (functional_coverage_parser.h, values used in
coverage_database.cpp and high_performance_parser.cpp). -/
inductive ParserResult where
  | success
  | errorFileNotFound
  | errorInvalidFormat
  | errorMemoryAllocation
  | errorInvalidParameter
  | errorParseFailed
deriving DecidableEq

/-- 2^32, the modulus of the `std::uint32_t` accumulators. -/
def u32 : Nat := 4294967296

-- ==========================================================================
-- Text utilities (src/src/parser_utils.cpp, namespace coverage_parser::utils)
-- ==========================================================================

/-- The whitespace set of `utils::trim`: `" \t\n\r"`. -/
def isTrimWs (c : Char) : Bool := c = ' ' || c = '\t' || c = '\n' || c = '\r'

/-- `utils::trim` (parser_utils.cpp:44): strips leading and trailing
space/tab/LF/CR; `find_first_not_of` returning `npos` (all-whitespace input)
yields the empty string, which the `dropWhile` formulation reproduces. -/
def trim (s : List Char) : List Char :=
  if s = [] then s
  else ((s.dropWhile isTrimWs).reverse.dropWhile isTrimWs).reverse

/-- The `while (std::getline(ss, token, delimiter))` loop of `utils::split`
(parser_utils.cpp:68), written by structural recursion on the stream so that
it evaluates in the kernel: a delimiter at the head ends an (empty) token,
any other head character belongs to the first token of the rest of the
stream's split, and getline fails (failbit) exactly on the exhausted
stream.  `getlines_loop_eq` below certifies that this definition satisfies
the loop's defining equation — one getline call extracts the characters
before the next delimiter and discards one delimiter if present. -/
def getlines (d : Char) : List Char → List (List Char)
  | [] => []
  | a :: l =>
    if a = d then [] :: getlines d l
    else
      match getlines d l with
      | [] => [[a]]
      | t :: ts => (a :: t) :: ts

/-- `utils::split(str, delimiter)` (parser_utils.cpp:68): the getline loop,
followed by the trailing-delimiter fix-up
`if (!str.empty() && str.back() == delimiter) tokens.push_back("")`.
`str.back()` is modelled with `getLast?`, whose `none` case coincides with the
short-circuited `!str.empty()` guard. -/
def split (str : List Char) (delimiter : Char) : List (List Char) :=
  let tokens := getlines delimiter str
  if str.getLast? = some delimiter then tokens ++ [[]] else tokens

/-- `utils::calculate_coverage_percentage` (parser_utils.cpp:330); the C++
`double` arithmetic is modelled exactly in `ℚ`. -/
def calculate_coverage_percentage (covered total : Nat) : ℚ :=
  if total = 0 then 0 else ((covered : ℚ) / (total : ℚ)) * 100

-- ==========================================================================
-- Data model.  The record layout (coverage_types.h) is not under src/; the
-- field sets below are the ones the src/ functions read and write, with types
-- as §3 of the specification gives them.
-- ==========================================================================

/-- `CoverageMetrics {covered, expected: u32, score: f64, is_valid: bool}`. -/
structure CoverageMetrics where
  covered : Nat
  expected : Nat
  score : ℚ
  is_valid : Bool
deriving DecidableEq

/-- `CoverageGroup`: key `name`, a metric and the fixed numeric fields the
groups format carries. -/
structure CoverageGroup where
  name : List Char
  coverage : CoverageMetrics
  instances : Nat
  weight : Nat
  goal : Nat
  at_least : Nat
  per_instance : Nat
  auto_bin_max : Nat
  print_missing : Nat
  comment : List Char
deriving DecidableEq

/-- `HierarchyInstance`: key `instance_path` with the derived fields
`module_name` and `depth_level`. -/
structure HierarchyInstance where
  instance_path : List Char
  module_name : List Char
  depth_level : Nat
  total_score : ℚ
  assert_coverage : CoverageMetrics
deriving DecidableEq

/-- `ModuleDefinition`: key `module_name`. -/
structure ModuleDefinition where
  module_name : List Char
  total_score : ℚ
  assert_coverage : CoverageMetrics
deriving DecidableEq

/-- `AssertCoverage`: key `assert_name`. -/
structure AssertCoverage where
  assert_name : List Char
  severity : List Char
  hit_count : Nat
  instance_path : List Char
  file_location : List Char
  line_number : Nat
deriving DecidableEq

/-- Modelled from the spec: `DashboardData` (§3), the singleton-per-database
summary record; its definition sits in coverage_types.h, which is not under
src/.  Only its presence in the database matters to the claims below. -/
structure DashboardData where
  date : List Char
  user : List Char
  version : List Char
  command_line : List Char
  total_score : ℚ
  assert_coverage : CoverageMetrics
  group_coverage : CoverageMetrics
  num_hierarchical_instances : Nat
deriving DecidableEq

/-- `CoverageDatabase` (coverage_database.cpp): one optional dashboard record
and four key-to-record mappings.  Each `std::map` keyed by the record's name
string is modelled as a list of records whose key is the record's own name
field (the `add_*` operations only ever store a record under its own name);
map iteration order never matters to the properties below (sums, counts and
membership only).  `last_modified` is the mutation timestamp. -/
structure CoverageDatabase where
  dashboard_data : Option DashboardData
  groups_table : List CoverageGroup
  hierarchy_table : List HierarchyInstance
  modules_table : List ModuleDefinition
  asserts_table : List AssertCoverage
  is_valid : Bool
  last_modified : Nat
deriving DecidableEq

/-- Key-overwriting insertion: `table[key] = record` of `std::map`. -/
def insertByKey (key : α → List Char) (r : α) (t : List α) : List α :=
  if t.any (fun x => key x = key r) then
    t.map fun x => if key x = key r then r else x
  else t ++ [r]

/-- `update_timestamp`: the current time is passed in as `now`. -/
def update_timestamp (now : Nat) (db : CoverageDatabase) : CoverageDatabase :=
  { db with last_modified := now }

/-- `CoverageDatabase::add_coverage_group` (coverage_database.cpp:69): the
null pointer argument is modelled as `none`; insertion and the timestamp
touch happen only for a non-null record with a non-empty name. -/
def add_coverage_group (g? : Option CoverageGroup) (now : Nat)
    (db : CoverageDatabase) : CoverageDatabase :=
  match g? with
  | none => db
  | some g =>
    if g.name ≠ [] then
      update_timestamp now
        { db with groups_table := insertByKey CoverageGroup.name g db.groups_table }
    else db

/-- `CoverageDatabase::add_hierarchy_instance` (coverage_database.cpp:76). -/
def add_hierarchy_instance (i? : Option HierarchyInstance) (now : Nat)
    (db : CoverageDatabase) : CoverageDatabase :=
  match i? with
  | none => db
  | some i =>
    if i.instance_path ≠ [] then
      update_timestamp now
        { db with hierarchy_table :=
            insertByKey HierarchyInstance.instance_path i db.hierarchy_table }
    else db

/-- `CoverageDatabase::add_module_definition` (coverage_database.cpp:83). -/
def add_module_definition (m? : Option ModuleDefinition) (now : Nat)
    (db : CoverageDatabase) : CoverageDatabase :=
  match m? with
  | none => db
  | some m =>
    if m.module_name ≠ [] then
      update_timestamp now
        { db with modules_table :=
            insertByKey ModuleDefinition.module_name m db.modules_table }
    else db

/-- `CoverageDatabase::add_assert_coverage` (coverage_database.cpp:90). -/
def add_assert_coverage (a? : Option AssertCoverage) (now : Nat)
    (db : CoverageDatabase) : CoverageDatabase :=
  match a? with
  | none => db
  | some a =>
    if a.assert_name ≠ [] then
      update_timestamp now
        { db with asserts_table :=
            insertByKey AssertCoverage.assert_name a db.asserts_table }
    else db

/-- `CoverageDatabase::validate` (coverage_database.cpp:108).  The null
pointer checks of the loops (`if (!group ...)`) cannot fire in this model:
the tables hold records, and `add_*` rejects null records, so only the
empty-name and impossible-metric conditions remain. -/
def validate (db : CoverageDatabase) : Bool :=
  if db.groups_table.isEmpty && db.hierarchy_table.isEmpty &&
      db.modules_table.isEmpty && db.asserts_table.isEmpty then
    false
  else
    db.groups_table.all
      (fun g => !g.name.isEmpty &&
        !(g.coverage.expected == 0 && 0 < g.coverage.covered)) &&
    db.hierarchy_table.all (fun i => !i.instance_path.isEmpty) &&
    db.modules_table.all (fun m => !m.module_name.isEmpty) &&
    db.asserts_table.all (fun a => !a.assert_name.isEmpty)

/-- `CoverageDatabase::calculate_overall_score` (coverage_database.cpp:149):
one loop over the groups accumulating both `std::uint32_t` sums (each update
wraps modulo 2^32), then `100.0 * total_covered / total_expected` when the
expected sum is positive.  The `double` expression is modelled exactly in
`ℚ` (both operands are below 2^53, so the conversions are exact; the final
division's IEEE rounding is not modelled). -/
def calculate_overall_score (db : CoverageDatabase) : ℚ :=
  if db.groups_table.isEmpty then 0
  else
    let t := db.groups_table.foldl
      (fun (p : Nat × Nat) g =>
        ((p.1 + g.coverage.covered) % u32, (p.2 + g.coverage.expected) % u32))
      (0, 0)
    if 0 < t.2 then (100 * (t.1 : ℚ)) / (t.2 : ℚ) else 0

/-- `CoverageStatistics` as generate_statistics fills it. -/
structure CoverageStatistics where
  overall_coverage_score : ℚ
  total_coverage_points : Nat
  covered_points : Nat
  num_zero_coverage_groups : Nat
  num_full_coverage_groups : Nat
deriving DecidableEq

/-- `CoverageDatabase::generate_statistics` (coverage_database.cpp:191): a
single loop over the groups accumulating the two wrapped `uint32` sums and
the two classification counters, `covered == 0` taking precedence over
`covered == expected` in the `if`/`else if`. -/
def generate_statistics (db : CoverageDatabase) : CoverageStatistics :=
  let t := db.groups_table.foldl
    (fun (p : Nat × Nat × Nat × Nat) g =>
      ((p.1 + g.coverage.covered) % u32,
       (p.2.1 + g.coverage.expected) % u32,
       (if g.coverage.covered = 0 then p.2.2.1 + 1 else p.2.2.1),
       (if g.coverage.covered ≠ 0 ∧ g.coverage.covered = g.coverage.expected
        then p.2.2.2 + 1 else p.2.2.2)))
    (0, 0, 0, 0)
  { overall_coverage_score :=
      if 0 < t.2.1 then (100 * (t.1 : ℚ)) / ((t.2.1 : ℚ)) else 0
    total_coverage_points := t.2.1
    covered_points := t.1
    num_zero_coverage_groups := t.2.2.1
    num_full_coverage_groups := t.2.2.2 }

/-- `CoverageDatabase::get_uncovered_groups` (coverage_database.cpp:179). -/
def get_uncovered_groups (db : CoverageDatabase) : List CoverageGroup :=
  db.groups_table.filter (fun g => g.coverage.covered == 0)

-- ==========================================================================
-- HierarchyInstance path methods (coverage_database.cpp:250-294)
-- ==========================================================================

/-- `std::string::find_last_of(c)`: the index of the last occurrence of `c`,
or `none` for `npos`. -/
def find_last_of (c : Char) : List Char → Option Nat
  | [] => none
  | a :: l =>
    match find_last_of c l with
    | some i => some (i + 1)
    | none => if a = c then some 0 else none

/-- `HierarchyInstance::calculate_depth_level` (coverage_database.cpp:250):
counts the `'.'` characters of the path. -/
def calculate_depth_level (instance_path : List Char) : Nat :=
  instance_path.foldl (fun n c => if c = '.' then n + 1 else n) 0

/-- `HierarchyInstance::extract_module_name` (coverage_database.cpp:259):
the part after the last `'.'`, or the whole path when there is no dot. -/
def extract_module_name (instance_path : List Char) : List Char :=
  if instance_path = [] then []
  else
    match find_last_of '.' instance_path with
    | some last_dot => instance_path.drop (last_dot + 1)
    | none => instance_path

/-- `HierarchyInstance::get_parent_path` (coverage_database.cpp:274). -/
def get_parent_path (instance_path : List Char) : List Char :=
  match find_last_of '.' instance_path with
  | some last_dot => instance_path.take last_dot
  | none => []

/-- Modelled from the spec: HierarchyInstance construction (§3 invariant) —
`depth_level` and `module_name` are always recomputed from `instance_path`
at construction time, never set independently.  The constructor itself lives
in coverage_types.h, which is not under src/; the two recomputation methods
it calls are embedded above from coverage_database.cpp. -/
def mkHierarchyInstance (path : List Char) (score : ℚ) (m : CoverageMetrics) :
    HierarchyInstance :=
  { instance_path := path
    module_name := extract_module_name path
    depth_level := calculate_depth_level path
    total_score := score
    assert_coverage := m }

-- ==========================================================================
-- Numeric parsing of parser_utils.cpp used by parse_percentage
-- ==========================================================================

/-- A decimal digit. -/
def isDigit (c : Char) : Bool := '0' ≤ c && c ≤ '9'

/-- The numeric value of a decimal digit string (most significant first). -/
def decValue (ds : List Char) : Nat :=
  ds.foldl (fun a c => a * 10 + (c.toNat - 48)) 0

/-- The whitespace set `std::isspace` uses (`' '`, TAB, LF, VT, FF, CR). -/
def isSpaceC (c : Char) : Bool :=
  c = ' ' || c = '\t' || c = '\n' || c = '\x0b' || c = '\x0c' || c = '\r'

/-- The exponent part accepted by `strtod` after a mantissa: `e`/`E`, an
optional sign and at least one digit.  Returns the scale factor and the
remaining input, or leaves the input untouched (prefix semantics: an
incomplete exponent is not consumed). -/
def strtodExponent (l : List Char) : ℚ × List Char :=
  match l with
  | e :: r =>
    if e = 'e' || e = 'E' then
      let (neg, r1) : Bool × List Char :=
        match r with
        | '+' :: x => (false, x)
        | '-' :: x => (true, x)
        | x => (false, x)
      let ed := r1.takeWhile isDigit
      if ed = [] then (1, l)
      else
        ((if neg then ((10 : ℚ) ^ decValue ed)⁻¹ else (10 : ℚ) ^ decValue ed),
         r1.drop ed.length)
    else (1, l)
  | [] => (1, l)

/-- `strtod` on the decimal forms that occur in coverage reports: skips
leading whitespace, then an optional sign, digits with an optional decimal
point (or a pure fractional part) and an optional exponent; returns the
value and the unconsumed suffix, or `none` when no conversion is possible.
Hexadecimal, infinity and NaN forms are not modelled, and the exact rational
value stands in for the nearest IEEE double (every comparison below is
between identically computed values, so the rounding never matters). -/
def strtodModel (l : List Char) : Option (ℚ × List Char) :=
  let t0 := l.dropWhile isSpaceC
  let (sign, t1) : ℚ × List Char :=
    match t0 with
    | '+' :: x => (1, x)
    | '-' :: x => (-1, x)
    | x => (1, x)
  let ip := t1.takeWhile isDigit
  let t2 := t1.drop ip.length
  match t2 with
  | '.' :: t3 =>
    let fp := t3.takeWhile isDigit
    let t4 := t3.drop fp.length
    if ip = [] && fp = [] then none
    else
      let mant : ℚ := sign * ((decValue ip : ℚ) + (decValue fp : ℚ) / (10 : ℚ) ^ fp.length)
      let (scale, t5) := strtodExponent t4
      some (mant * scale, t5)
  | _ =>
    if ip = [] then none
    else
      let (scale, t5) := strtodExponent t2
      some (sign * (decValue ip : ℚ) * scale, t5)

/-- `std::stod`: `strtod` prefix parsing; the exception on failure is the
`none` case (callers below catch it). -/
def stod (l : List Char) : Option ℚ :=
  (strtodModel l).map (fun p => p.1)

/-- `utils::parse_percentage` (parser_utils.cpp:187).  `clean_str.back()` on
an empty `clean_str` — which happens exactly when the input is non-empty but
all whitespace — is undefined behaviour in the source and is modelled as
`none`; every defined path returns `some` value (`-1` is the error
sentinel). -/
def parse_percentage (percentage_str : List Char) : Option ℚ :=
  if percentage_str = [] then some (-1)
  else
    let clean_str := trim percentage_str
    match clean_str.getLast? with
    | none => none
    | some back =>
      let clean2 := if back = '%' then clean_str.dropLast else clean_str
      match stod clean2 with
      | some v => some v
      | none => some (-1)

-- ==========================================================================
-- High-performance parser (src/src/high_performance_parser.cpp).
-- The SIMD byte scans are modelled by their scalar semantics, which the
-- spec (§4.4) requires to be byte-identical.
-- ==========================================================================

/-- `std::string_view::find(pat) != npos`: `pat` occurs as a contiguous
substring. -/
def containsSub (pat l : List Char) : Bool :=
  l.tails.any (fun t => pat.isPrefixOf t)

/-- The whitespace set of `simd::skip_whitespace_simd` (space, tab, CR, LF). -/
def isWs4 (c : Char) : Bool := c = ' ' || c = '\t' || c = '\r' || c = '\n'

/-- `simd::find_newlines_simd` (high_performance_parser.cpp:160): the offsets
of every `'\n'` in the buffer, in order. -/
def find_newlines (data : List Char) : List Nat :=
  (data.enum.filterMap (fun p => if p.2 = '\n' then some p.1 else none))

/-- `simd::parse_uint_simd` (high_performance_parser.cpp:234).  Up to eight
characters take the fast digit loop, which succeeds exactly when the whole
token is digits (so a value below 10^8 < 2^32, no wrap).  Longer tokens fall
back to `strtoul` with a full-consumption check and a `UINT32_MAX` bound;
`strtoul` accepts an optional sign (a `-` wraps modulo 2^64) and saturates
to `ULONG_MAX` on overflow, with a 64-bit `unsigned long`. -/
def parse_uint_simd (tok : List Char) : Option Nat :=
  if tok = [] then none
  else if tok.length ≤ 8 then
    if tok.all isDigit then some (decValue tok) else none
  else
    let (neg, ds) : Bool × List Char :=
      match tok with
      | '+' :: x => (false, x)
      | '-' :: x => (true, x)
      | x => (false, x)
    if ds = [] || !ds.all isDigit then none
    else
      let raw := decValue ds
      let v :=
        if raw ≥ 18446744073709551616 then 18446744073709551615
        else if neg then (18446744073709551616 - raw % 18446744073709551616) % 18446744073709551616
        else raw
      if v ≤ u32 - 1 then some v else none

/-- `simd::parse_double_simd` (high_performance_parser.cpp:260): `strtod`
with a full-consumption check (`endptr == end`). -/
def parse_double_simd (tok : List Char) : Option ℚ :=
  if tok = [] then none
  else
    match strtodModel tok with
    | some (v, rest) => if rest = [] then some v else none
    | none => none

/-- A token character of `tokenize_line_simd`: the token scan
`while (current < end && *current != ' ' && *current != '\t')` stops only at
a space or tab. -/
def isTokChar (c : Char) : Bool := !(c = ' ' || c = '\t')

/-- `HighPerformanceGroupsParser::tokenize_line_simd`
(high_performance_parser.cpp:568): alternately skip whitespace
(space/tab/CR/LF) and scan a token that ends only at a space or tab.  The
two nested loops are written as one structural character scan with the
current token as accumulator (`cur`, reversed) so that the function
evaluates in the kernel; `tokenize_loop_eq` below certifies that it
satisfies the source loop's defining equation.  After a whitespace skip the
head is not a space or tab, so the emitted token is never empty and the
`current > token_start` guard of the source is always true. -/
def tokenize_line_simd (l : List Char) : List (List Char) :=
  go l []
where
  /-- One character step: space/tab ends the current token (if any); CR/LF
  is skipped when no token is open (the whitespace skip) and belongs to the
  token otherwise (the token scan does not stop at it); anything else
  extends the token. -/
  go : List Char → List Char → List (List Char)
    | [], cur => if cur = [] then [] else [cur.reverse]
    | c :: rest, cur =>
      if c = ' ' || c = '\t' then
        if cur = [] then go rest [] else cur.reverse :: go rest []
      else if (c = '\r' || c = '\n') && cur.isEmpty then go rest []
      else go rest (c :: cur)

/-- A default-constructed `CoverageGroup` (`std::make_unique<CoverageGroup>()`
in `parse_chunk`).  Modelled from the spec: coverage_types.h is not under
src/; the fields are value-initialized to zero/empty. -/
def defaultCoverageGroup : CoverageGroup :=
  { name := [], coverage := { covered := 0, expected := 0, score := 0, is_valid := false },
    instances := 0, weight := 0, goal := 0, at_least := 0, per_instance := 0,
    auto_bin_max := 0, print_missing := 0, comment := [] }

/-- `HighPerformanceGroupsParser::parse_group_line_optimized`
(high_performance_parser.cpp:511), acting on the group record it receives
(`g0`, freshly default-constructed by `parse_chunk`).  Requires at least 12
tokens; parses covered/expected/score from tokens 0–2 (failure is
`ERROR_PARSE_FAILED`); assigns the seven secondary fields only when tokens
4–10 all parse as `uint32`; and stores token 12 as the name when more than
12 tokens exist.  Token 3 is never read. -/
def parse_group_line_optimized (line : List Char) (g0 : CoverageGroup) :
    ParserResult × CoverageGroup :=
  let tokens := tokenize_line_simd line
  let t := fun i => tokens.getD i []
  if tokens.length < 12 then (ParserResult.errorInvalidFormat, g0)
  else
    match parse_uint_simd (t 0), parse_uint_simd (t 1), parse_double_simd (t 2) with
    | some covered, some expected, some score =>
      let g1 := { g0 with coverage :=
        { covered := covered, expected := expected, score := score, is_valid := true } }
      let g2 :=
        match parse_uint_simd (t 4), parse_uint_simd (t 5), parse_uint_simd (t 6),
              parse_uint_simd (t 7), parse_uint_simd (t 8), parse_uint_simd (t 9),
              parse_uint_simd (t 10) with
        | some instances, some weight, some goal, some at_least, some per_instance,
          some auto_bin_max, some print_missing =>
          { g1 with instances := instances, weight := weight, goal := goal,
                    at_least := at_least, per_instance := per_instance,
                    auto_bin_max := auto_bin_max, print_missing := print_missing }
        | _, _, _, _, _, _, _ => g1
      let g3 := if 12 < tokens.length then { g2 with name := t 12 } else g2
      (ParserResult.success, g3)
    | _, _, _ => (ParserResult.errorParseFailed, g0)

/-- A byte range of the memory-mapped file
(`ParallelProcessor::FileChunk`). -/
structure FileChunk where
  start_offset : Nat
  end_offset : Nat
  line_start : Nat
  line_end : Nat
deriving DecidableEq

/-- `ParallelProcessor::find_line_boundary`
(high_performance_parser.cpp:383).  Backward: the position after the
previous newline.  Forward: one past the next newline, or `file_size`. -/
def find_line_boundary (data : List Char) (start file_size : Nat)
    (find_start : Bool) : Nat :=
  if start = 0 && find_start then 0
  else if start ≥ file_size then file_size
  else if find_start then
    backScan data start
  else
    match (data.drop start).findIdx? (fun c => c = '\n') with
    | some j => start + j + 1
    | none => file_size
where
  /-- `while (pos > 0 && data[pos - 1] != '\n') pos--`. -/
  backScan (data : List Char) : Nat → Nat
    | 0 => 0
    | p + 1 => if data.getD p ' ' = '\n' then p + 1 else backScan data p

/-- `ParallelProcessor::create_chunks` (high_performance_parser.cpp:340):
single chunk for files under 1 MB or one thread; otherwise `num_threads`
candidate ranges of `file_size / num_threads` bytes, each snapped to line
boundaries and kept only when non-degenerate.  (`num_threads = 0` would be a
division by zero in the source; here `Nat` division yields chunk size 0 and
an empty range list, a case no caller reaches with a large file.) -/
def create_chunks (data : List Char) (num_threads : Nat) : List FileChunk :=
  let file_size := data.length
  if file_size = 0 then []
  else if file_size < 1048576 || num_threads = 1 then
    [{ start_offset := 0, end_offset := file_size, line_start := 0, line_end := file_size }]
  else
    let chunk_size := file_size / num_threads
    (List.range num_threads).filterMap fun i =>
      let so := i * chunk_size
      let eo := if i = num_threads - 1 then file_size else (i + 1) * chunk_size
      let ls := find_line_boundary data so file_size true
      let le := find_line_boundary data eo file_size false
      if ls < le then some { start_offset := so, end_offset := eo, line_start := ls, line_end := le }
      else none

/-- `HighPerformanceGroupsParser::parse_chunk`
(high_performance_parser.cpp:472): iterate the newline offsets of the
chunk's byte range; for each non-empty line that contains neither `"---"`
nor `"COVERED"`, run the line parser on a fresh default group and keep the
record exactly when it returns `SUCCESS`.  Text after the last newline of
the range is never parsed.  The function itself always returns `SUCCESS`,
so only the collected records are modelled. -/
def parse_chunk (data : List Char) (chunk : FileChunk) : List CoverageGroup :=
  let region := (data.drop chunk.line_start).take (chunk.line_end - chunk.line_start)
  let newlines := find_newlines region
  (newlines.foldl
    (fun (st : Nat × List CoverageGroup) newline_offset =>
      let line_start_offset := st.1
      let line := (region.drop line_start_offset).take (newline_offset - line_start_offset)
      let keep :=
        if line = [] || containsSub ("---".toList) line || containsSub ("COVERED".toList) line then
          []
        else
          match parse_group_line_optimized line defaultCoverageGroup with
          | (ParserResult.success, g) => [g]
          | _ => []
      (newline_offset + 1, st.2 ++ keep))
    (0, [])).2

/-- `MemoryMappedFile` (high_performance_parser.cpp:38): the data pointer is
`none` when any step failed.  `osFile` is the operating system's view of the
path (`none`: the file cannot be opened); a zero-length file and an OS
mapping failure (`mapOk = false`) also leave the object invalid. -/
def mmapOpen (osFile : Option (List Char)) (mapOk : Bool) : Option (List Char) :=
  match osFile with
  | none => none
  | some content =>
    if content.length = 0 then none
    else if mapOk then some content else none

/-- `HighPerformanceGroupsParser::parse` (high_performance_parser.cpp:414):
map the file (invalid map ⇒ `ERROR_FILE_NOT_FOUND` with the database
untouched), split into chunks, parse every chunk, and merge each chunk's
records into the database in order with `add_coverage_group`.  Each
`parse_chunk` returns `SUCCESS`, so the early-return on a chunk failure
never fires. -/
def hp_parse (osFile : Option (List Char)) (mapOk : Bool) (num_threads : Nat)
    (now : Nat) (db : CoverageDatabase) : ParserResult × CoverageDatabase :=
  match mmapOpen osFile mapOk with
  | none => (ParserResult.errorFileNotFound, db)
  | some content =>
    let chunks := create_chunks content num_threads
    let groups := (chunks.map (parse_chunk content)).flatten
    (ParserResult.success,
     groups.foldl (fun d g => add_coverage_group (some g) now d) db)

/-- The tuple P6 compares: `(name, covered, expected, score)`. -/
def groupTuple (g : CoverageGroup) : List Char × Nat × Nat × ℚ :=
  (g.name, g.coverage.covered, g.coverage.expected, g.coverage.score)

/-- The multiset of record tuples the parallel pipeline produces for a file
content, before the merge into the database. -/
def parGroupTuples (content : List Char) (num_threads : Nat) :
    List (List Char × Nat × Nat × ℚ) :=
  (((create_chunks content num_threads).map (parse_chunk content)).flatten).map groupTuple

-- ==========================================================================
-- Sequential GroupsParser, modelled from the spec (its implementation is
-- not under src/).
-- ==========================================================================

/-- `utils::split_whitespace` (parser_utils.cpp:94): split on whitespace
runs, discarding empty fields. -/
def split_whitespace (l : List Char) : List (List Char) :=
  (l.splitOnP isSpaceC).filter (fun t => t ≠ [])

/-- Modelled from the spec: the sequential `GroupsParser` data-line
recognition (§4.2) — the file is read as newline-delimited lines (a trailing
partial line is still processed); header/separator lines (containing `---`
or the column-header token `COVERED`) are skipped, as are lines with fewer
than the minimum field count (ten fixed fields plus the name); the group
name is the last whitespace-delimited token; covered, expected and score are
the first three fields, extracted with the same recognition rules as the
parallel variant (§4.4 requires the two to agree).  Only the
`(name, covered, expected, score)` tuple of each record is modelled, the
part P6 compares. -/
def seqGroupTuples (content : List Char) : List (List Char × Nat × Nat × ℚ) :=
  (content.splitOn '\n').filterMap fun line =>
    if containsSub ("---".toList) line || containsSub ("COVERED".toList) line then none
    else
      let tokens := split_whitespace line
      if tokens.length < 11 then none
      else
        match parse_uint_simd (tokens.getD 0 []), parse_uint_simd (tokens.getD 1 []),
              parse_double_simd (tokens.getD 2 []) with
        | some covered, some expected, some score =>
          some (tokens.getLastD [], covered, expected, score)
        | _, _, _ => none


-- ==========================================================================
-- Concrete data for the scenario evaluations
-- ==========================================================================

/-- The Scenario B groups row (spec §8), with its quoted comment. -/
def lineB : List Char :=
  ("45      50        90.00   2.00    3      95     2        1            128          32         \"High priority group\"    tb.cpu.alu::arithmetic_ops").toList

/-- A one-record groups file: the Scenario B row and a final newline. -/
def contentB : List Char := lineB ++ ['\n']

/-- An all-zero metric. -/
def metricZero : CoverageMetrics :=
  { covered := 0, expected := 0, score := 0, is_valid := false }

/-- A small non-empty database used as the concrete frame for witnesses. -/
def dbEx : CoverageDatabase :=
  { dashboard_data := none
    groups_table := [{ defaultCoverageGroup with name := ['g'], coverage :=
      { covered := 3, expected := 4, score := 75, is_valid := true } }]
    hierarchy_table := []
    modules_table := []
    asserts_table := []
    is_valid := true
    last_modified := 3 }

/-- A hierarchy record with an empty key. -/
def emptyKeyHier : HierarchyInstance :=
  { instance_path := [], module_name := ['m'], depth_level := 5, total_score := 1,
    assert_coverage := metricZero }

/-- A module record with an empty key. -/
def emptyKeyModule : ModuleDefinition :=
  { module_name := [], total_score := 2, assert_coverage := metricZero }

/-- An assertion record with an empty key. -/
def emptyKeyAssert : AssertCoverage :=
  { assert_name := [], severity := ("FAIL").toList, hit_count := 1,
    instance_path := ['x'], file_location := ['f'], line_number := 9 }

/-- A group whose metric is the empty 0/0 measurement. -/
def groupC5 : CoverageGroup :=
  { defaultCoverageGroup with
    name := ['g']
    coverage := { covered := 0, expected := 0, score := 0, is_valid := true } }

/-- A database holding exactly the 0/0 group. -/
def dbC5 : CoverageDatabase :=
  { dashboard_data := none, groups_table := [groupC5], hierarchy_table := [],
    modules_table := [], asserts_table := [], is_valid := true, last_modified := 0 }

/-- Scenario D metric of g1: 0 of 16. -/
def metricD1 : CoverageMetrics := { covered := 0, expected := 16, score := 0, is_valid := true }

/-- Scenario D metric of g2: 128 of 128. -/
def metricD2 : CoverageMetrics := { covered := 128, expected := 128, score := 100, is_valid := true }

/-- The Scenario D database: groups g1 (0/16) and g2 (128/128). -/
def dbD : CoverageDatabase :=
  { dashboard_data := none
    groups_table :=
      [{ defaultCoverageGroup with name := ("g1").toList, coverage := metricD1 },
       { defaultCoverageGroup with name := ("g2").toList, coverage := metricD2 }]
    hierarchy_table := [], modules_table := [], asserts_table := [],
    is_valid := true, last_modified := 0 }

-- ==========================================================================
-- Loop-shape lemmas: the structural recursions above satisfy the defining
-- equations of the source's loops.
-- ==========================================================================

/-- The structural `getlines` satisfies the getline-loop equation: on a
non-empty stream, one iteration yields the characters before the first
delimiter and the loop continues after that delimiter. -/
theorem getlines_loop_eq (d : Char) (l : List Char) (h : l ≠ []) :
    getlines d l =
      l.takeWhile (fun c => c ≠ d) ::
        getlines d ((l.dropWhile (fun c => c ≠ d)).tail) := by
  induction l with
  | nil => exact absurd rfl h
  | cons a l ih =>
    by_cases had : a = d
    · subst had
      simp [getlines, List.takeWhile_cons, List.dropWhile_cons]
    · rcases eq_or_ne l [] with rfl | hl
      · simp [getlines, had, List.takeWhile_cons, List.dropWhile_cons]
      · rw [getlines, if_neg had, ih hl]
        simp [List.takeWhile_cons, List.dropWhile_cons, had]


/-- `tokenize_line_simd.go` with an open token: the token is completed by
the characters up to the next space/tab, and the scan continues after
them. -/
theorem tokenize_go_open (l : List Char) (cur : List Char) (h : cur ≠ []) :
    tokenize_line_simd.go l cur =
      (cur.reverse ++ l.takeWhile isTokChar) ::
        tokenize_line_simd.go (l.drop (l.takeWhile isTokChar).length) [] := by
  induction l generalizing cur with
  | nil => simp [tokenize_line_simd.go, h]
  | cons c rest ih =>
    by_cases hst : (c = ' ' || c = '\t') = true
    · have htc : isTokChar c = false := by
        simp only [isTokChar, hst, Bool.not_true]
      rw [tokenize_line_simd.go]
      simp only [hst, if_true, if_neg h]
      rw [List.takeWhile_cons, htc]
      simp only [Bool.false_eq_true, if_false, List.length_nil, List.drop_zero,
        List.append_nil]
      conv_rhs => rw [tokenize_line_simd.go]
      simp [hst]
    · have htc : isTokChar c = true := by
        simp only [isTokChar, hst, Bool.not_false]
      have hce : cur.isEmpty = false := by
        simp [List.isEmpty_iff, h]
      rw [tokenize_line_simd.go]
      rw [if_neg (by simp [hst]), if_neg (by simp [hce])]
      rw [ih (c :: cur) (by simp)]
      rw [List.takeWhile_cons, htc]
      simp

/-- The structural `tokenize_line_simd` satisfies the source's loop
equation: skip the leading whitespace; if anything remains, the next token
runs to the next space/tab and tokenization continues after it. -/
theorem tokenize_loop_eq (l : List Char) :
    tokenize_line_simd l =
      match l.dropWhile isWs4 with
      | [] => []
      | c :: rest =>
        (c :: rest.takeWhile isTokChar) ::
          tokenize_line_simd (rest.drop (rest.takeWhile isTokChar).length) := by
  induction l with
  | nil => simp [tokenize_line_simd, tokenize_line_simd.go]
  | cons c rest ih =>
    by_cases hw : isWs4 c = true
    · have hskip : tokenize_line_simd (c :: rest) = tokenize_line_simd rest := by
        simp only [tokenize_line_simd, tokenize_line_simd.go]
        by_cases hst : (c = ' ' || c = '\t') = true
        · simp [hst]
        · have hcn : (c = '\r' || c = '\n') = true := by
            simp only [isWs4, Bool.or_eq_true, decide_eq_true_eq] at hw hst ⊢
            push_neg at hst
            tauto
          simp [hst, hcn]
      rw [hskip, ih, List.dropWhile_cons, if_pos hw]
    · have hst : (c = ' ' || c = '\t') = false := by
        simp only [isWs4, Bool.or_eq_true, decide_eq_true_eq] at hw
        push_neg at hw
        simp only [Bool.or_eq_false_iff, decide_eq_false_iff_not]
        tauto
      have hcn : (c = '\r' || c = '\n') = false := by
        simp only [isWs4, Bool.or_eq_true, decide_eq_true_eq] at hw
        push_neg at hw
        simp only [Bool.or_eq_false_iff, decide_eq_false_iff_not]
        tauto
      rw [List.dropWhile_cons, if_neg (by simp [hw])]
      simp only [tokenize_line_simd, tokenize_line_simd.go]
      rw [if_neg (by simp [hst]), if_neg (by simp [hcn])]
      rw [tokenize_go_open rest [c] (by simp)]
      simp


-- ==========================================================================
-- Helper lemmas
-- ==========================================================================

/-- The head of a non-empty `dropWhile` result fails the predicate. -/
theorem head_dropWhile_false {p : Char → Bool} {l : List Char} {a : Char} {t : List Char}
    (h : l.dropWhile p = a :: t) : p a = false := by
  induction l with
  | nil => simp at h
  | cons c rest ih =>
    rw [List.dropWhile_cons] at h
    by_cases hc : p c = true
    · rw [if_pos hc] at h; exact ih h
    · rw [if_neg hc] at h
      cases h
      simpa using hc

/-- The getline loop together with the trailing-delimiter fix-up computes
`List.splitOn` on every non-empty string. -/
theorem getlines_splitOn (d : Char) :
    ∀ (n : Nat) (l : List Char), l.length ≤ n → l ≠ [] →
      getlines d l ++ (if l.getLast? = some d then [[]] else []) = l.splitOn d := by
  intro n
  induction n with
  | zero =>
    intro l hn hne
    cases l with
    | nil => exact absurd rfl hne
    | cons a t => simp at hn
  | succ n ih =>
    intro l hn hne
    rw [getlines_loop_eq d l hne]
    rcases hdw : l.dropWhile (fun c => decide (c ≠ d)) with _ | ⟨e, rest⟩
    · -- no delimiter occurs in l
      have hall : ∀ x ∈ l, (fun c => decide (c ≠ d)) x = true :=
        List.dropWhile_eq_nil_iff.mp hdw
      have htk : l.takeWhile (fun c => decide (c ≠ d)) = l :=
        List.takeWhile_eq_self_iff.mpr hall
      have hlast : ¬(l.getLast? = some d) := by
        intro hcon
        have hdm : d ∈ l.getLast? := by rw [hcon]; rfl
        obtain ⟨hne', hgl⟩ := List.mem_getLast?_eq_getLast hdm
        have hmem : l.getLast hne' ∈ l := List.getLast_mem hne'
        have := hall _ hmem
        rw [← hgl] at this
        simp at this
      rw [htk]
      simp only [List.tail_nil]
      rw [if_neg hlast]
      have hsingle : l.splitOn d = [l] := by
        apply List.splitOnP_eq_single
        intro x hx
        have := hall x hx
        simp only [decide_eq_true_eq] at this
        simp [this]
      rw [hsingle]
      simp [getlines]
    · -- l = tok ++ d :: rest (the delimiter heads the dropWhile remainder)
      have hed : e = d := by simpa using head_dropWhile_false hdw
      subst hed
      have hdecomp : l.takeWhile (fun c => decide (c ≠ e)) ++ e :: rest = l := by
        conv_rhs => rw [← List.takeWhile_append_dropWhile (p := fun c => decide (c ≠ e)) (l := l)]
        rw [hdw]
      have htokmem : ∀ x ∈ l.takeWhile (fun c => decide (c ≠ e)), ¬((x == e) = true) := by
        intro x hx
        have := List.mem_takeWhile_imp hx
        simp only [decide_eq_true_eq] at this
        simp [this]
      have hsplit : l.splitOn e = l.takeWhile (fun c => decide (c ≠ e)) :: rest.splitOn e := by
        conv_lhs => rw [← hdecomp]
        simp only [List.splitOn]
        exact List.splitOnP_first (fun x => x == e)
          (l.takeWhile (fun c => decide (c ≠ e))) htokmem e (by simp) rest
      rcases eq_or_ne rest [] with rfl | hrest
      · have hlast : l.getLast? = some e := by
          rw [← hdecomp]
          exact List.getLast?_concat _
        simp only [List.tail_cons]
        rw [if_pos hlast, hsplit]
        simp [getlines, List.splitOn, List.splitOnP_nil]
      · have hlast : l.getLast? = rest.getLast? := by
          rw [← hdecomp, List.getLast?_append_cons]
          cases rest with
          | nil => exact absurd rfl hrest
          | cons b t => simp [List.getLast?]
        have hlen : rest.length ≤ n := by
          have h2 : l.length = (l.takeWhile (fun c => decide (c ≠ e))).length + rest.length + 1 := by
            conv_lhs => rw [← hdecomp]
            simp [List.length_append]
            omega
          omega
        simp only [List.tail_cons]
        rw [hsplit, ← ih rest hlen hrest, hlast]
        simp [List.cons_append]


-- ==========================================================================
-- General helper lemmas
-- ==========================================================================

/-- Unfolding the count accumulators of the `generate_statistics` loop: the
final two components count the `covered == 0` groups and the
`covered ≠ 0 ∧ covered = expected` groups. -/
theorem stats_fold_counts (l : List CoverageGroup) (a b c d : Nat) :
    (l.foldl
      (fun (p : Nat × Nat × Nat × Nat) g =>
        ((p.1 + g.coverage.covered) % u32,
         (p.2.1 + g.coverage.expected) % u32,
         (if g.coverage.covered = 0 then p.2.2.1 + 1 else p.2.2.1),
         (if g.coverage.covered ≠ 0 ∧ g.coverage.covered = g.coverage.expected
          then p.2.2.2 + 1 else p.2.2.2)))
      (a, b, c, d)).2.2 =
      (c + l.countP (fun g => g.coverage.covered == 0),
       d + l.countP (fun g =>
          decide (0 < g.coverage.covered) && g.coverage.covered == g.coverage.expected)) := by
  induction l generalizing a b c d with
  | nil => simp
  | cons g l ih =>
    rw [List.foldl_cons, ih, List.countP_cons, List.countP_cons]
    by_cases h0 : g.coverage.covered = 0
    · have hc1 : (g.coverage.covered == 0) = true := by simp [h0]
      have hc2 : (decide (0 < g.coverage.covered) &&
          (g.coverage.covered == g.coverage.expected)) = false := by simp [h0]
      rw [hc1, hc2, if_pos h0, if_neg (by simp [h0])]
      simp only [Prod.mk.injEq]
      norm_num
      omega
    · have hc1 : (g.coverage.covered == 0) = false := by simp [h0]
      by_cases heq : g.coverage.covered = g.coverage.expected
      · have hc2 : (decide (0 < g.coverage.covered) &&
            (g.coverage.covered == g.coverage.expected)) = true := by
          rw [← heq]
          simp [Nat.pos_iff_ne_zero, h0]
        rw [hc1, hc2, if_neg h0, if_pos ⟨h0, heq⟩]
        simp only [Prod.mk.injEq]
        norm_num
        omega
      · have hc2 : (decide (0 < g.coverage.covered) &&
            (g.coverage.covered == g.coverage.expected)) = false := by simp [heq]
        rw [hc1, hc2, if_neg h0, if_neg (by tauto)]
        simp

/-- The wrapped `uint32` accumulation of `calculate_overall_score` equals the
plain sums as long as those sums stay below 2^32. -/
theorem score_fold_mod (l : List CoverageGroup) (a b : Nat)
    (ha : a + (l.map (fun g => g.coverage.covered)).sum < u32)
    (hb : b + (l.map (fun g => g.coverage.expected)).sum < u32) :
    l.foldl
      (fun (p : Nat × Nat) g =>
        ((p.1 + g.coverage.covered) % u32, (p.2 + g.coverage.expected) % u32))
      (a, b)
      = (a + (l.map (fun g => g.coverage.covered)).sum,
         b + (l.map (fun g => g.coverage.expected)).sum) := by
  induction l generalizing a b with
  | nil => simp
  | cons g l ih =>
    simp only [List.map_cons, List.sum_cons] at ha hb
    rw [List.foldl_cons]
    have h1 : (a + g.coverage.covered) % u32 = a + g.coverage.covered :=
      Nat.mod_eq_of_lt (by omega)
    have h2 : (b + g.coverage.expected) % u32 = b + g.coverage.expected :=
      Nat.mod_eq_of_lt (by omega)
    rw [h1, h2, ih _ _ (by omega) (by omega)]
    simp only [List.map_cons, List.sum_cons, Prod.mk.injEq]
    omega

/-- `find_last_of` returns `npos` exactly when the character is absent. -/
theorem find_last_of_none_iff (c : Char) (l : List Char) :
    find_last_of c l = none ↔ c ∉ l := by
  induction l with
  | nil => simp [find_last_of]
  | cons a t ih =>
    rw [find_last_of]
    cases hft : find_last_of c t with
    | some j =>
      rw [hft] at ih
      simp only [reduceCtorEq, false_iff, not_not] at ih
      simp only [reduceCtorEq, false_iff]
      exact fun hcon => hcon (List.mem_cons_of_mem a ih)
    | none =>
      rw [hft] at ih
      simp only [true_iff] at ih
      by_cases hac : a = c
      · subst hac
        simp
      · simp only [if_neg hac, reduceCtorEq, true_iff, List.mem_cons]
        push_neg
        exact ⟨fun hca => hac hca.symm, ih⟩

/-- `find_last_of` marks the last occurrence: the list decomposes around
index `i` into a prefix, the character, and a suffix free of it. -/
theorem find_last_of_decomp (c : Char) (l : List Char) (i : Nat)
    (h : find_last_of c l = some i) :
    l.take i ++ c :: l.drop (i + 1) = l ∧ c ∉ l.drop (i + 1) := by
  induction l generalizing i with
  | nil => simp [find_last_of] at h
  | cons a t ih =>
    rw [find_last_of] at h
    cases hft : find_last_of c t with
    | some j =>
      rw [hft] at h
      simp only [Option.some.injEq] at h
      subst h
      obtain ⟨h1, h2⟩ := ih j hft
      refine ⟨?_, by simpa using h2⟩
      simp only [List.take_succ_cons, List.drop_succ_cons, List.cons_append]
      exact congrArg (List.cons a) h1
    | none =>
      rw [hft] at h
      by_cases hac : a = c
      · rw [if_pos hac] at h
        simp only [Option.some.injEq] at h
        subst h
        subst hac
        simp only [List.take_zero, List.drop_succ_cons, List.drop_zero, List.nil_append,
          true_and]
        exact (find_last_of_none_iff a t).mp hft
      · rw [if_neg hac] at h
        cases h

/-- The depth loop counts exactly the dots of the path. -/
theorem depth_level_count (l : List Char) : calculate_depth_level l = l.count '.' := by
  suffices h : ∀ n, l.foldl (fun n c => if c = '.' then n + 1 else n) n = n + l.count '.' by
    simpa using h 0
  induction l with
  | nil => intro n; simp
  | cons a t ih =>
    intro n
    rw [List.foldl_cons]
    by_cases h : a = '.'
    · rw [if_pos h, ih, List.count_cons]
      simp [h]
      omega
    · rw [if_neg h, ih, List.count_cons]
      simp [h]

/-- Without a dot, the whole path is the module name and the parent path is
empty. -/
theorem extract_module_name_no_dot (path : List Char) (h : '.' ∉ path) :
    extract_module_name path = path ∧ get_parent_path path = [] := by
  have hnone : find_last_of '.' path = none := (find_last_of_none_iff '.' path).mpr h
  rw [extract_module_name, get_parent_path, hnone]
  rcases eq_or_ne path [] with rfl | hne
  · simp
  · rw [if_neg hne]
    exact ⟨rfl, rfl⟩

/-- With a dot present, parent path and module name recombine into the path,
and the module name holds no further dot: it is the component after the last
dot. -/
theorem extract_module_name_dot (path : List Char) (h : '.' ∈ path) :
    get_parent_path path ++ '.' :: extract_module_name path = path ∧
      '.' ∉ extract_module_name path := by
  have hne : path ≠ [] := by rintro rfl; simp at h
  have hsome : find_last_of '.' path ≠ none := by
    rw [Ne, find_last_of_none_iff]
    simpa using h
  obtain ⟨i, hi⟩ := Option.ne_none_iff_exists'.mp hsome
  obtain ⟨h1, h2⟩ := find_last_of_decomp '.' path i hi
  rw [extract_module_name, get_parent_path, hi, if_neg hne]
  exact ⟨h1, h2⟩

-- ==========================================================================
-- Claim theorems
-- ==========================================================================

set_option maxRecDepth 1000000 in
/-- C2 (code bug evaluation): on the Scenario B groups row the line parser
returns `SUCCESS` with `covered = 45`, `expected = 50`, `score = 90`, but it
stores token 12 — `group"`, the tail of the quoted comment — as the group
name instead of the final token `tb.cpu.alu::arithmetic_ops`, and it leaves
`weight`, `goal` and `comment` at their default values (token 10, `"High`,
fails the uint parse, so no secondary field is assigned), contradicting the
claimed `weight = 3`, `goal = 95`. -/
theorem hp_group_line_scenario_b :
    (parse_group_line_optimized lineB defaultCoverageGroup).1 = ParserResult.success ∧
    (parse_group_line_optimized lineB defaultCoverageGroup).2.name = ("group\"").toList ∧
    (tokenize_line_simd lineB).getLastD [] = ("tb.cpu.alu::arithmetic_ops").toList ∧
    (parse_group_line_optimized lineB defaultCoverageGroup).2.name ≠
      (tokenize_line_simd lineB).getLastD [] ∧
    (parse_group_line_optimized lineB defaultCoverageGroup).2.coverage.covered = 45 ∧
    (parse_group_line_optimized lineB defaultCoverageGroup).2.coverage.expected = 50 ∧
    (parse_group_line_optimized lineB defaultCoverageGroup).2.coverage.score = 90 ∧
    (parse_group_line_optimized lineB defaultCoverageGroup).2.weight = defaultCoverageGroup.weight ∧
    (parse_group_line_optimized lineB defaultCoverageGroup).2.goal = defaultCoverageGroup.goal ∧
    (parse_group_line_optimized lineB defaultCoverageGroup).2.comment = defaultCoverageGroup.comment := by
  refine ⟨by decide, by decide, by decide, by decide, by decide, by decide, ?_,
    by decide, by decide, by decide⟩
  have h : (parse_group_line_optimized lineB defaultCoverageGroup).2.coverage.score
      = (1 : ℚ) * (((90:ℕ) : ℚ) + ((0:ℕ) : ℚ) / (10 : ℚ) ^ (2 : ℕ)) * 1 := rfl
  rw [h]
  norm_num

set_option maxRecDepth 1000000 in
/-- C1 (code bug evaluation): on the one-line Scenario B groups file the
parallel pipeline produces the multiset `{(group", 45, 50, 90)}` — the name
is token 12, the tail of the quoted comment — while the spec-modelled
sequential parser produces `{(tb.cpu.alu::arithmetic_ops, 45, 50, 90)}`, so
the two multisets of `(name, covered, expected, score)` tuples differ. -/
theorem hp_parallel_seq_divergence :
    (parGroupTuples contentB 4).map (fun t => t.1) = [("group\"").toList] ∧
    (seqGroupTuples contentB).map (fun t => t.1) = [("tb.cpu.alu::arithmetic_ops").toList] ∧
    (parGroupTuples contentB 4 : Multiset (List Char × Nat × Nat × ℚ)) ≠
      (seqGroupTuples contentB : Multiset (List Char × Nat × Nat × ℚ)) := by
  refine ⟨by decide, by decide, ?_⟩
  intro hEq
  have hmap := congrArg (Multiset.map (fun t : List Char × Nat × Nat × ℚ => t.1)) hEq
  rw [Multiset.map_coe, Multiset.map_coe] at hmap
  rw [show (parGroupTuples contentB 4).map (fun t => t.1) = [("group\"").toList] from by decide,
      show (seqGroupTuples contentB).map (fun t => t.1) =
        [("tb.cpu.alu::arithmetic_ops").toList] from by decide] at hmap
  rw [Multiset.coe_singleton, Multiset.coe_singleton] at hmap
  exact absurd (Multiset.singleton_inj.mp hmap) (by decide)

/-- C3: `calculate_overall_score` is the coverage percentage of the covered
and expected sums over the coverage groups alone — the right-hand side reads
nothing but `groups_table`, so hierarchy, module and assert records cannot
contribute — and it is `0` for a database with no groups.  The hypotheses
say the `uint32` accumulators do not wrap. -/
theorem overall_score_groups_only (db : CoverageDatabase)
    (hc : (db.groups_table.map (fun g => g.coverage.covered)).sum < u32)
    (he : (db.groups_table.map (fun g => g.coverage.expected)).sum < u32) :
    calculate_overall_score db =
      if db.groups_table = [] then 0
      else calculate_coverage_percentage
        (db.groups_table.map (fun g => g.coverage.covered)).sum
        (db.groups_table.map (fun g => g.coverage.expected)).sum := by
  rw [calculate_overall_score]
  rcases eq_or_ne db.groups_table [] with hemp | hne
  · simp [hemp]
  · rw [if_neg (by simpa [List.isEmpty_iff] using hne), if_neg hne]
    rw [score_fold_mod db.groups_table 0 0 (by omega) (by omega)]
    simp only [Nat.zero_add]
    rw [calculate_coverage_percentage]
    rcases Nat.eq_zero_or_pos ((db.groups_table.map (fun g => g.coverage.expected)).sum) with h0 | hpos
    · simp [h0]
    · rw [if_pos hpos, if_neg (by omega)]
      rw [div_mul_eq_mul_div, mul_comm]

/-- C3 witness: on the Scenario D database {g1: 0/16, g2: 128/128} the
overall score is 100·128/144. -/
theorem overall_score_groups_only_witness :
    calculate_overall_score dbD = 100 * 128 / 144 := by
  have h := overall_score_groups_only dbD (by decide) (by decide)
  rw [h, if_neg (by simp [dbD])]
  norm_num [dbD, metricD1, metricD2, defaultCoverageGroup, calculate_coverage_percentage]

/-- C4: `validate` returns `false` exactly when the database is entirely
empty, or some stored record has an empty key, or some group has
`expected = 0` with `covered > 0`. -/
theorem validate_false_iff (db : CoverageDatabase) :
    validate db = false ↔
      (db.groups_table = [] ∧ db.hierarchy_table = [] ∧
        db.modules_table = [] ∧ db.asserts_table = []) ∨
      (∃ g ∈ db.groups_table, g.name = []) ∨
      (∃ i ∈ db.hierarchy_table, i.instance_path = []) ∨
      (∃ m ∈ db.modules_table, m.module_name = []) ∨
      (∃ a ∈ db.asserts_table, a.assert_name = []) ∨
      (∃ g ∈ db.groups_table, g.coverage.expected = 0 ∧ 0 < g.coverage.covered) := by
  rw [validate]
  split
  case isTrue h =>
    simp only [Bool.and_eq_true, List.isEmpty_iff] at h
    obtain ⟨⟨⟨h1, h2⟩, h3⟩, h4⟩ := h
    simp [h1, h2, h3, h4]
  case isFalse h =>
    simp only [Bool.and_eq_true, List.isEmpty_iff] at h
    constructor
    · intro hf
      simp only [Bool.and_eq_false_iff, List.all_eq_false] at hf
      rcases hf with ((hg | hh) | hm) | ha
      · obtain ⟨g, hgmem, hgp⟩ := hg
        simp only [Bool.and_eq_true, Bool.not_eq_true', Bool.not_eq_false, not_and] at hgp
        by_cases hname : g.name = []
        · exact Or.inr (Or.inl ⟨g, hgmem, hname⟩)
        · have hep := hgp (by simp [List.isEmpty_iff, hname])
          refine Or.inr (Or.inr (Or.inr (Or.inr (Or.inr ⟨g, hgmem, ?_⟩))))
          simpa using hep
      · obtain ⟨i, himem, hip⟩ := hh
        exact Or.inr (Or.inr (Or.inl ⟨i, himem, by simpa [List.isEmpty_iff] using hip⟩))
      · obtain ⟨m, hmmem, hmp⟩ := hm
        exact Or.inr (Or.inr (Or.inr (Or.inl ⟨m, hmmem, by simpa [List.isEmpty_iff] using hmp⟩)))
      · obtain ⟨a, hamem, hap⟩ := ha
        exact Or.inr (Or.inr (Or.inr (Or.inr (Or.inl ⟨a, hamem, by simpa [List.isEmpty_iff] using hap⟩))))
    · intro hr
      rcases hr with hemp | ⟨g, hgmem, hgp⟩ | ⟨i, himem, hip⟩ | ⟨m, hmmem, hmp⟩ |
        ⟨a, hamem, hap⟩ | ⟨g, hgmem, hgp⟩
      · exact absurd ⟨⟨⟨hemp.1, hemp.2.1⟩, hemp.2.2.1⟩, hemp.2.2.2⟩ h
      · refine Bool.and_eq_false_iff.mpr (Or.inl (Bool.and_eq_false_iff.mpr (Or.inl
          (Bool.and_eq_false_iff.mpr (Or.inl ?_)))))
        rw [List.all_eq_false]
        exact ⟨g, hgmem, by simp [hgp]⟩
      · refine Bool.and_eq_false_iff.mpr (Or.inl (Bool.and_eq_false_iff.mpr (Or.inl
          (Bool.and_eq_false_iff.mpr (Or.inr ?_)))))
        rw [List.all_eq_false]
        exact ⟨i, himem, by simp [hip]⟩
      · refine Bool.and_eq_false_iff.mpr (Or.inl (Bool.and_eq_false_iff.mpr (Or.inr ?_)))
        rw [List.all_eq_false]
        exact ⟨m, hmmem, by simp [hmp]⟩
      · refine Bool.and_eq_false_iff.mpr (Or.inr ?_)
        rw [List.all_eq_false]
        exact ⟨a, hamem, by simp [hap]⟩
      · refine Bool.and_eq_false_iff.mpr (Or.inl (Bool.and_eq_false_iff.mpr (Or.inl
          (Bool.and_eq_false_iff.mpr (Or.inl ?_)))))
        rw [List.all_eq_false]
        refine ⟨g, hgmem, ?_⟩
        simp [hgp.1, hgp.2, Nat.pos_iff_ne_zero]

/-- C5 amended: `num_zero_coverage_groups` counts every group with
`covered = 0` — a group with `expected = 0` and `covered = 0` included —
while `num_full_coverage_groups` counts exactly the groups with
`covered > 0` and `covered = expected` (hence only groups with
`expected > 0`). -/
theorem generate_statistics_classification (db : CoverageDatabase) :
    (generate_statistics db).num_zero_coverage_groups
        = db.groups_table.countP (fun g => g.coverage.covered == 0) ∧
    (generate_statistics db).num_full_coverage_groups
        = db.groups_table.countP (fun g =>
            decide (0 < g.coverage.covered) && g.coverage.covered == g.coverage.expected) := by
  have h := stats_fold_counts db.groups_table 0 0 0 0
  rw [generate_statistics]
  constructor
  · have := congrArg Prod.fst h
    simpa using this
  · have := congrArg Prod.snd h
    simpa using this

/-- C5 counterexample: in a database holding exactly one group with
`expected = 0` and `covered = 0`, that group is classified as
zero-coverage — `num_zero_coverage_groups` is 1 although no group has
`expected > 0`, so the count is not restricted to groups with
`expected > 0` as the claim states. -/
theorem stats_empty_group_cex :
    (generate_statistics dbC5).num_zero_coverage_groups = 1 ∧
    dbC5.groups_table.countP (fun g => decide (0 < g.coverage.expected)) = 0 := by
  constructor <;> decide

/-- C6 amended: `split` agrees with the standard `List.splitOn` — fields in
order, empty fields between consecutive delimiters preserved, a single
trailing delimiter yielding a final empty field — except that splitting the
empty string yields zero fields, not one empty field. -/
theorem split_eq_splitOn (str : List Char) (delimiter : Char) :
    split str delimiter = if str = [] then [] else str.splitOn delimiter := by
  rcases eq_or_ne str [] with rfl | hne
  · simp [split, getlines]
  · rw [if_neg hne, ← getlines_splitOn delimiter str.length str le_rfl hne, split]
    split <;> simp

/-- C6 counterexample: splitting the empty string yields zero fields, not
the claimed single empty field. -/
theorem split_empty_cex :
    split ([] : List Char) ',' = [] ∧ split ([] : List Char) ',' ≠ [[]] :=
  ⟨rfl, by decide⟩

/-- C7 (code bug evaluation): on the all-whitespace input `" "` the function
reaches `clean_str.back()` with `clean_str` empty — undefined behaviour,
modelled as `none` — refuting totality; the guarded paths behave as
specified: the empty string returns the sentinel `-1` and `"45.67%"` parses
to 45.67. -/
theorem parse_percentage_total_eval :
    parse_percentage ([' ']) = none ∧ parse_percentage [] = some (-1) ∧
    parse_percentage (("45.67%").toList) = some (4567 / 100) := by
  refine ⟨by decide, by decide, ?_⟩
  have h : parse_percentage (("45.67%").toList)
      = some ((1 : ℚ) * (((45:ℕ) : ℚ) + ((67:ℕ) : ℚ) / (10 : ℚ) ^ (2 : ℕ)) * 1) := rfl
  rw [h]
  norm_num

/-- C8: for every constructed `HierarchyInstance`, `depth_level` is the
number of dots of `instance_path` and `module_name` is the component after
the last dot — the whole path when no dot occurs, and otherwise the unique
dot-free suffix that recombines with `get_parent_path` and a dot into the
path; in particular for `top.cpu.alu` the depth is 2, the module is `alu`
and the parent path is `top.cpu`. -/
theorem hierarchy_depth_module_laws :
    (∀ (path : List Char) (score : ℚ) (m : CoverageMetrics),
      (mkHierarchyInstance path score m).depth_level = path.count '.' ∧
      (mkHierarchyInstance path score m).instance_path = path ∧
      ('.' ∉ path → (mkHierarchyInstance path score m).module_name = path) ∧
      ('.' ∈ path →
        get_parent_path path ++ '.' :: (mkHierarchyInstance path score m).module_name = path ∧
        '.' ∉ (mkHierarchyInstance path score m).module_name)) ∧
    (mkHierarchyInstance (("top.cpu.alu").toList) 0 metricZero).depth_level = 2 ∧
    (mkHierarchyInstance (("top.cpu.alu").toList) 0 metricZero).module_name = ("alu").toList ∧
    get_parent_path (("top.cpu.alu").toList) = ("top.cpu").toList := by
  refine ⟨?_, by decide, by decide, by decide⟩
  intro path score m
  refine ⟨depth_level_count path, rfl, ?_, ?_⟩
  · intro h
    exact (extract_module_name_no_dot path h).1
  · intro h
    exact extract_module_name_dot path h

/-- C9: whenever the memory map is invalid — the file cannot be opened, is
zero-length, or the OS mapping fails — `parse` returns
`ERROR_FILE_NOT_FOUND` and the database is returned entirely unchanged. -/
theorem hp_parse_map_failure (osFile : Option (List Char)) (mapOk : Bool)
    (num_threads now : Nat) (db : CoverageDatabase)
    (h : osFile = none ∨ osFile = some [] ∨ mapOk = false) :
    hp_parse osFile mapOk num_threads now db = (ParserResult.errorFileNotFound, db) := by
  rcases h with rfl | rfl | rfl
  · rfl
  · rfl
  · cases osFile with
    | none => rfl
    | some content =>
      have hm : mmapOpen (some content) false = none := by
        rw [mmapOpen]
        split <;> rfl
      rw [hp_parse, hm]

/-- C9 witness: a nonexistent file leaves the concrete database `dbEx`
untouched and reports `ERROR_FILE_NOT_FOUND`. -/
theorem hp_parse_map_failure_witness :
    hp_parse none true 4 7 dbEx = (ParserResult.errorFileNotFound, dbEx) :=
  hp_parse_map_failure none true 4 7 dbEx (Or.inl rfl)

/-- C10: each `add_*` operation is a complete no-op — all four collections,
the dashboard record and the `last_modified` timestamp unchanged — when
given a null record or a record with an empty key. -/
theorem add_null_or_empty_no_op (now : Nat) (db : CoverageDatabase)
    (g : CoverageGroup) (i : HierarchyInstance) (m : ModuleDefinition) (a : AssertCoverage)
    (hg : g.name = []) (hi : i.instance_path = []) (hm : m.module_name = [])
    (ha : a.assert_name = []) :
    add_coverage_group none now db = db ∧ add_coverage_group (some g) now db = db ∧
    add_hierarchy_instance none now db = db ∧ add_hierarchy_instance (some i) now db = db ∧
    add_module_definition none now db = db ∧ add_module_definition (some m) now db = db ∧
    add_assert_coverage none now db = db ∧ add_assert_coverage (some a) now db = db := by
  refine ⟨rfl, ?_, rfl, ?_, rfl, ?_, rfl, ?_⟩ <;>
    simp [add_coverage_group, add_hierarchy_instance, add_module_definition,
      add_assert_coverage, hg, hi, hm, ha]

/-- C10 witness: at a concrete non-empty database and concrete empty-key
records, every `add_*` call leaves the database — timestamp included —
exactly as it was. -/
theorem add_null_or_empty_no_op_witness :
    add_coverage_group none 7 dbEx = dbEx ∧
    add_coverage_group (some defaultCoverageGroup) 7 dbEx = dbEx ∧
    add_hierarchy_instance none 7 dbEx = dbEx ∧
    add_hierarchy_instance (some emptyKeyHier) 7 dbEx = dbEx ∧
    add_module_definition none 7 dbEx = dbEx ∧
    add_module_definition (some emptyKeyModule) 7 dbEx = dbEx ∧
    add_assert_coverage none 7 dbEx = dbEx ∧
    add_assert_coverage (some emptyKeyAssert) 7 dbEx = dbEx :=
  add_null_or_empty_no_op 7 dbEx defaultCoverageGroup emptyKeyHier emptyKeyModule
    emptyKeyAssert rfl rfl rfl rfl

end CovParse

